import Mathlib

/-!
Verification of the `scoosed/3d` multiplayer 3D engine (client `engine.py`,
server `server.py`).

The client's software render pipeline (camera-space clipping, perspective
projection, backface culling, depth sorting), the server's id assignment and
handshake, the client network send, world generation, and the camera zoom
state are embedded below as executable Lean definitions over exact rationals
(Python floats are modelled as exact arithmetic on `ℚ`).  Machine trig only
appears in the world→camera transform, which none of the verified claims
touch: the pipeline stages are modelled from the camera-space vertex lists
they actually consume.
-/

/-- A camera-space point `(x, y, z)` (engine.py represents these as 3-tuples
of floats; coordinates are modelled as exact rationals). -/
structure Point where
  x : ℚ
  y : ℚ
  z : ℚ
deriving DecidableEq, Repr

/-- engine.py line 275: `NEAR_CLIP_PLANE = -0.1`. -/
def NEAR_CLIP_PLANE : ℚ := -1/10

/-- engine.py line 268: `WIDTH, HEIGHT = 1920, 1080`. -/
def WIDTH : ℚ := 1920

/-- engine.py line 268: screen height. -/
def HEIGHT : ℚ := 1080

/-- Python's `int(...)` applied to a float: truncation toward zero
(`-⌊-q⌋` is the ceiling, i.e. truncation, for negative `q`). -/
def pyInt (q : ℚ) : ℤ := if 0 ≤ q then ⌊q⌋ else -⌊-q⌋

/-- engine.py lines 450-452, `Engine3D.project_point`:
`if z >= 0: return None`, else
`factor = 400 / -z; return (int(x * factor + WIDTH / 2), int(-y * factor + HEIGHT / 2))`. -/
def project_point (p : Point) : Option (ℤ × ℤ) :=
  if 0 ≤ p.z then none
  else
    let factor : ℚ := 400 / (-p.z)
    some (pyInt (p.x * factor + WIDTH / 2), pyInt (-p.y * factor + HEIGHT / 2))

/-- engine.py lines 456-462: the body of the clipping loop for one edge
`(p1, p2) = (poly_verts[i], poly_verts[(i + 1) % len(poly_verts)])`:
classify both endpoints against `NEAR_CLIP_PLANE`, keep `p2` when both are in,
emit the interpolated intersection (and `p2` when entering) when exactly one
is in, and emit nothing when both are out. -/
def clipEdge (p1 p2 : Point) : List Point :=
  if p1.z < NEAR_CLIP_PLANE ∧ p2.z < NEAR_CLIP_PLANE then [p2]
  else if p1.z < NEAR_CLIP_PLANE ∨ p2.z < NEAR_CLIP_PLANE then
    if p2.z - p1.z = 0 then []
    else
      let t := (NEAR_CLIP_PLANE - p1.z) / (p2.z - p1.z)
      let ix := p1.x + t * (p2.x - p1.x)
      let iy := p1.y + t * (p2.y - p1.y)
      if p1.z < NEAR_CLIP_PLANE then [⟨ix, iy, NEAR_CLIP_PLANE⟩]
      else [⟨ix, iy, NEAR_CLIP_PLANE⟩, p2]
  else []

/-- engine.py lines 453-463, `Engine3D.clip_against_near_plane`: the Python
loop visits the edge pairs `(poly_verts[i], poly_verts[(i + 1) % n])` for
`i = 0, …, n-1`; that pair list is exactly `poly_verts.zip (poly_verts.rotate 1)`,
and the contributions of the edges are concatenated in order. -/
def clip_against_near_plane (poly_verts : List Point) : List Point :=
  (poly_verts.zip (poly_verts.rotate 1)).flatMap fun e => clipEdge e.1 e.2

/-- Componentwise difference of points, as used for the edge vectors in
engine.py line 546. -/
def Point.sub (a b : Point) : Point :=
  ⟨a.x - b.x, a.y - b.y, a.z - b.z⟩

/-- Dot product of camera-space vectors (engine.py line 548). -/
def dot (a b : Point) : ℚ :=
  a.x * b.x + a.y * b.y + a.z * b.z

/-- engine.py lines 546-547: `vec1 = v1 - v0; vec2 = v2 - v0;`
`nx, ny, nz = vec1[1]*vec2[2] - vec1[2]*vec2[1], vec1[2]*vec2[0] - vec1[0]*vec2[2], vec1[0]*vec2[1] - vec1[1]*vec2[0]`. -/
def faceNormal (v0 v1 v2 : Point) : Point :=
  let vec1 := v1.sub v0
  let vec2 := v2.sub v0
  ⟨vec1.y * vec2.z - vec1.z * vec2.y,
   vec1.z * vec2.x - vec1.x * vec2.z,
   vec1.x * vec2.y - vec1.y * vec2.x⟩

/-- engine.py lines 551-552: `projected = [self.project_point(*v) for v in clipped_face]`;
`if None in projected: continue` — the face is dropped whenever any vertex
fails to project, otherwise the projected screen points are used. -/
def projectVerts (verts : List Point) : Option (List (ℤ × ℤ)) :=
  let projected := verts.map project_point
  if none ∈ projected then none
  else some (projected.filterMap id)

/-- A face record as collected by `_draw_scene` (engine.py line 542):
`{"depth": min(v[2] for v in face_verts), "verts": face_verts, "color": obj.color}`. -/
structure Face where
  depth : ℚ
  verts : List Point
  color : ℕ × ℕ × ℕ
deriving DecidableEq, Repr

/-- Python's `min(v[2] for v in face_verts)`: a left fold of `min` over the
z-coordinates, starting from the first.  The `[]` case is unreachable in
`_draw_scene` because of the `if face_verts:` guard on line 542. -/
def faceDepth : List Point → ℚ
  | [] => 0
  | v :: rest => rest.foldl (fun m p => min m p.z) v.z

/-- engine.py lines 538-542: for every object (its color paired with the
camera-space vertex lists of its faces), every nonempty face contributes one
`Face` record with the minimum-z depth key, in iteration order. -/
def collectFaces (objs : List ((ℕ × ℕ × ℕ) × List (List Point))) : List Face :=
  objs.flatMap fun obj =>
    (obj.2.filter fun verts => !verts.isEmpty).map fun verts =>
      { depth := faceDepth verts, verts := verts, color := obj.1 }

/-- engine.py line 543: `all_faces.sort(key=lambda f: f["depth"])`.  Python's
`list.sort` is a stable ascending sort by the key; it is modelled by the
stable insertion sort on the depth field. -/
def sortFaces (faces : List Face) : List Face :=
  List.insertionSort (fun f g => f.depth ≤ g.depth) faces

/-- engine.py lines 544-552, one iteration of the draw loop up to and
including the projection stage: unpack the first three vertices, cull when
the face normal dotted with `v0` is `≥ 0`, clip against the near plane, drop
the face when fewer than 3 vertices survive, then project (dropping the face
if any projection fails).  The subsequent shading and rasterization stages
(lines 553-558) are not modelled: no claim concerns them.  A face with fewer
than three vertices never reaches this loop (cuboid faces are quads). -/
def faceVisiblePolygon (f : Face) : Option (List (ℤ × ℤ)) :=
  match f.verts with
  | v0 :: v1 :: v2 :: _ =>
    if 0 ≤ dot (faceNormal v0 v1 v2) v0 then none
    else
      let clipped := clip_against_near_plane f.verts
      if clipped.length < 3 then none
      else projectVerts clipped
  | _ => none

/-! ## Server model (server.py) -/

/-- One entry of the server's shared `players` table (server.py line 68):
`players[player_id] = {'pos': [0, 5, 0], 'color': player_color, 'name': player_name}`. -/
structure PlayerEntry where
  pos : ℚ × ℚ × ℚ
  color : ℕ × ℕ × ℕ
  name : String
deriving DecidableEq, Repr

/-- server.py lines 56-68, the handshake portion of `threaded_client`: after
sending the assigned id, the handler tries to unpickle the client's name.
`decoded_name = none` models the `except (pickle.UnpicklingError, EOFError)`
branch: the connection is closed and the function returns, leaving the table
untouched.  On success the player is registered with spawn position
`[0, 5, 0]`, the drawn random color, and the received name. -/
def threaded_client_handshake (players : List (ℕ × PlayerEntry)) (player_id : ℕ)
    (decoded_name : Option String) (player_color : ℕ × ℕ × ℕ) : List (ℕ × PlayerEntry) :=
  match decoded_name with
  | none => players
  | some name => players ++ [(player_id, ⟨(0, 5, 0), player_color, name⟩)]

/-- Events observable at the server's accept loop: an accepted connection
(server.py lines 104-109) or a client disconnect (handled inside the
connection's thread, server.py lines 93-97). -/
inductive ServerEvent where
  | accept : ServerEvent
  | disconnect : ℕ → ServerEvent
deriving DecidableEq, Repr

/-- Whether an event is an accepted connection. -/
def ServerEvent.isAccept : ServerEvent → Bool
  | .accept => true
  | .disconnect _ => false

/-- The id-assignment state of the server: the global `player_id_counter`
(server.py line 22, initialized to 1) together with the history of ids handed
to accepted connections. -/
structure ServerIdState where
  player_id_counter : ℕ
  assigned : List ℕ
deriving DecidableEq, Repr

/-- server.py lines 104-109: each accepted connection is handed the current
`player_id_counter`, which is then incremented.  A disconnect only deletes
the player's entry from the shared table (lines 95-96) and never touches the
counter or the assignment history. -/
def serverStep (s : ServerIdState) : ServerEvent → ServerIdState
  | .accept => { player_id_counter := s.player_id_counter + 1,
                 assigned := s.assigned ++ [s.player_id_counter] }
  | .disconnect _ => s

/-- The server starts with `player_id_counter = 1` and no ids assigned. -/
def serverStart : ServerIdState := { player_id_counter := 1, assigned := [] }

/-- The id-assignment state after an arbitrary sequence of accepted
connections and disconnections. -/
def runServer (events : List ServerEvent) : ServerIdState :=
  events.foldl serverStep serverStart

/-- The size field of a cube dictionary: server.py stores a scalar for the
random cubes and a 3-tuple for the ground (the client's `Cube.__init__`
expands a scalar `s` to `(s, s, s)`). -/
inductive PySize where
  | scalar : ℚ → PySize
  | triple : ℚ × ℚ × ℚ → PySize
deriving DecidableEq, Repr

/-- A world-cube descriptor `{'pos': …, 'size': …, 'color': …}` as built by
`generate_random_world_cubes` (server.py lines 33 and 46). -/
structure CubeDesc where
  pos : ℚ × ℚ × ℚ
  size : PySize
  color : ℕ × ℕ × ℕ
deriving DecidableEq, Repr

/-- server.py line 18: `GRASS_GREEN = (124, 252, 0)`. -/
def GRASS_GREEN : ℕ × ℕ × ℕ := (124, 252, 0)

/-- The random draws consumed by one iteration of the generation loop
(server.py lines 38-44): `px = uniform(-70, 70)`, `pz = uniform(-70, 70)`,
`size = uniform(3, 10)`, and the random color. -/
structure CubeDraw where
  px : ℚ
  pz : ℚ
  size : ℚ
  color : ℕ × ℕ × ℕ
deriving DecidableEq, Repr

/-- server.py lines 25-46, `generate_random_world_cubes`, with the random
draws passed in explicitly: first the ground cuboid at `(0, -2, 0)` of size
`(150, 1, 150)`, then one cube per draw at `(px, -1.5 + size/2, pz)` with the
drawn scalar size and color. -/
def generate_random_world_cubes (draws : List CubeDraw) : List CubeDesc :=
  { pos := (0, -2, 0), size := .triple (150, 1, 150), color := GRASS_GREEN } ::
  draws.map fun d =>
    { pos := (d.px, -3/2 + d.size / 2, d.pz), size := .scalar d.size, color := d.color }

/-! ## Network client model (engine.py, class Network) -/

/-- A full world snapshot as deserialized by the client: the reply dictionary
`{'players': players, 'cubes': world_cubes}` (server.py lines 84-87). -/
structure Snapshot where
  players : List (ℕ × PlayerEntry)
  cubes : List CubeDesc
deriving DecidableEq, Repr

/-- The outcome of one blocking socket operation: either a value or a raised
`socket.error`. -/
inductive TransportResult (α : Type) where
  | ok : α → TransportResult α
  | socketError : String → TransportResult α
deriving DecidableEq, Repr

/-- engine.py lines 316-323, `Network.send`: `self.client.send(pickle.dumps(data))`
then `return pickle.loads(self.client.recv(2048 * 4))`, with
`except socket.error: return None`.  The two blocking socket operations are
modelled by their outcomes; a `socket.error` raised by either one is caught
and turned into `none`, and on success the deserialized snapshot is
returned. -/
def network_send (send_result : TransportResult Unit)
    (recv_result : TransportResult Snapshot) : Option Snapshot :=
  match send_result with
  | .socketError _ => none
  | .ok _ =>
    match recv_result with
    | .socketError _ => none
    | .ok snap => some snap

/-! ## Camera zoom model (engine.py, class Camera / Engine3D) -/

/-- The zoom-relevant fields of `Camera` (engine.py lines 343-344):
`self.distance, self.min_distance, self.max_distance = 15, 5, 40` and
`self.zoom_speed = 1.0`. -/
structure Camera where
  distance : ℚ
  min_distance : ℚ
  max_distance : ℚ
  zoom_speed : ℚ
deriving DecidableEq, Repr

/-- `Camera.__init__` (engine.py lines 343-344). -/
def Camera.start : Camera :=
  { distance := 15, min_distance := 5, max_distance := 40, zoom_speed := 1 }

/-- Mouse-wheel events: pygame button 4 (wheel up) and button 5 (wheel down). -/
inductive ZoomEvent where
  | wheelUp : ZoomEvent
  | wheelDown : ZoomEvent
deriving DecidableEq, Repr

/-- engine.py lines 469-471, `_handle_game_input`:
`if event.button == 4: self.camera.distance -= self.camera.zoom_speed`,
`elif event.button == 5: self.camera.distance += self.camera.zoom_speed`.
No clamping happens here. -/
def handle_game_input (c : Camera) : ZoomEvent → Camera
  | .wheelUp => { c with distance := c.distance - c.zoom_speed }
  | .wheelDown => { c with distance := c.distance + c.zoom_speed }

/-- engine.py line 475, in `_update_physics_and_input`:
`self.camera.distance = max(self.camera.min_distance, min(self.camera.max_distance, self.camera.distance))`. -/
def clamp_distance (c : Camera) : Camera :=
  { c with distance := max c.min_distance (min c.max_distance c.distance) }

/-- One frame of the run loop (engine.py lines 587-598) restricted to the
camera distance: all queued wheel events are handled first, then
`_update_physics_and_input` clamps the distance. -/
def frame_step (c : Camera) (events : List ZoomEvent) : Camera :=
  clamp_distance (events.foldl handle_game_input c)

/-! ## Helper lemmas: clipping and projection -/

theorem flatMap_singleton_eq_map {α β : Type} (f : α → List β) (g : α → β) :
    ∀ l : List α, (∀ x ∈ l, f x = [g x]) → l.flatMap f = l.map g
  | [], _ => rfl
  | x :: l, h => by
    rw [List.flatMap_cons, List.map_cons, h x (List.mem_cons_self x l),
      flatMap_singleton_eq_map f g l fun y hy => h y (List.mem_cons_of_mem x hy)]
    rfl

theorem mem_zip_rotate {poly : List Point} {e : Point × Point}
    (he : e ∈ poly.zip (poly.rotate 1)) : e.1 ∈ poly ∧ e.2 ∈ poly := by
  obtain ⟨h1, h2⟩ := List.of_mem_zip he
  exact ⟨h1, List.mem_rotate.mp h2⟩

theorem clipEdge_of_both_in {p1 p2 : Point} (h1 : p1.z < NEAR_CLIP_PLANE)
    (h2 : p2.z < NEAR_CLIP_PLANE) : clipEdge p1 p2 = [p2] := by
  unfold clipEdge
  rw [if_pos ⟨h1, h2⟩]

theorem clipEdge_of_both_out {p1 p2 : Point} (h1 : ¬p1.z < NEAR_CLIP_PLANE)
    (h2 : ¬p2.z < NEAR_CLIP_PLANE) : clipEdge p1 p2 = [] := by
  unfold clipEdge
  rw [if_neg (by tauto), if_neg (by tauto)]

theorem clipEdge_z_le (p1 p2 : Point) : ∀ v ∈ clipEdge p1 p2, v.z ≤ NEAR_CLIP_PLANE := by
  intro v hv
  unfold clipEdge at hv
  split_ifs at hv with hboth hone hzero hp1
  · rw [List.mem_singleton] at hv
    exact hv ▸ le_of_lt hboth.2
  · simp at hv
  · rw [List.mem_singleton] at hv
    rw [hv]
  · rcases List.mem_cons.mp hv with h | h
    · rw [h]
    · rw [List.mem_singleton] at h
      rcases hone with h1 | h2
      · exact absurd h1 hp1
      · exact h ▸ le_of_lt h2
  · simp at hv

theorem clip_z_le (poly : List Point) :
    ∀ v ∈ clip_against_near_plane poly, v.z ≤ NEAR_CLIP_PLANE := by
  intro v hv
  unfold clip_against_near_plane at hv
  obtain ⟨e, _, hve⟩ := List.mem_flatMap.mp hv
  exact clipEdge_z_le e.1 e.2 v hve

theorem clip_eq_rotate_of_all_in (poly : List Point)
    (h : ∀ v ∈ poly, v.z < NEAR_CLIP_PLANE) :
    clip_against_near_plane poly = poly.rotate 1 := by
  unfold clip_against_near_plane
  rw [flatMap_singleton_eq_map (fun e => clipEdge e.1 e.2) Prod.snd _ fun e he => by
    obtain ⟨h1, h2⟩ := mem_zip_rotate he
    exact clipEdge_of_both_in (h e.1 h1) (h e.2 h2)]
  exact List.map_snd_zip _ _ (le_of_eq (List.length_rotate poly 1))

theorem clip_eq_nil_of_all_out (poly : List Point)
    (h : ∀ v ∈ poly, NEAR_CLIP_PLANE ≤ v.z) :
    clip_against_near_plane poly = [] := by
  unfold clip_against_near_plane
  rw [List.flatMap_eq_nil_iff]
  intro e he
  obtain ⟨h1, h2⟩ := mem_zip_rotate he
  exact clipEdge_of_both_out (not_lt.mpr (h e.1 h1)) (not_lt.mpr (h e.2 h2))

theorem NEAR_CLIP_PLANE_neg : NEAR_CLIP_PLANE < 0 := by norm_num [NEAR_CLIP_PLANE]

theorem project_point_of_z_neg {p : Point} (h : p.z < 0) :
    project_point p = some (pyInt (p.x * (400 / -p.z) + WIDTH / 2),
      pyInt (-p.y * (400 / -p.z) + HEIGHT / 2)) := by
  unfold project_point
  rw [if_neg (not_le.mpr h)]

theorem project_point_ne_none_of_z_le {v : Point} (h : v.z ≤ NEAR_CLIP_PLANE) :
    project_point v ≠ none := by
  rw [project_point_of_z_neg (lt_of_le_of_lt h NEAR_CLIP_PLANE_neg)]
  exact Option.some_ne_none _

theorem projectVerts_ne_none_of_all_some {verts : List Point}
    (h : ∀ v ∈ verts, project_point v ≠ none) : projectVerts verts ≠ none := by
  unfold projectVerts
  rw [if_neg fun hmem => by
    obtain ⟨v, hv, hvnone⟩ := List.mem_map.mp hmem
    exact h v hv hvnone]
  exact Option.some_ne_none _

theorem projectVerts_clip_ne_none (poly : List Point) :
    projectVerts (clip_against_near_plane poly) ≠ none :=
  projectVerts_ne_none_of_all_some fun v hv =>
    project_point_ne_none_of_z_le (clip_z_le poly v hv)

/-! ## Helper lemmas: depth keys and the stable sort -/

theorem foldl_min_le_start (rest : List Point) :
    ∀ a : ℚ, rest.foldl (fun m p => min m p.z) a ≤ a := by
  induction rest with
  | nil => intro a; exact le_refl a
  | cons p rest ih =>
    intro a
    exact le_trans (ih (min a p.z)) (min_le_left a p.z)

theorem foldl_min_le_mem (rest : List Point) :
    ∀ a : ℚ, ∀ p ∈ rest, rest.foldl (fun m p => min m p.z) a ≤ p.z := by
  induction rest with
  | nil => intro a p hp; simp at hp
  | cons q rest ih =>
    intro a p hp
    rw [List.foldl_cons]
    rcases List.mem_cons.mp hp with h | h
    · subst h
      exact le_trans (foldl_min_le_start rest (min a p.z)) (min_le_right a p.z)
    · exact ih (min a q.z) p h

theorem foldl_min_eq_start_or_mem (rest : List Point) :
    ∀ a : ℚ, rest.foldl (fun m p => min m p.z) a = a ∨
      ∃ p ∈ rest, rest.foldl (fun m p => min m p.z) a = p.z := by
  induction rest with
  | nil => intro a; exact Or.inl rfl
  | cons q rest ih =>
    intro a
    rcases ih (min a q.z) with h | ⟨p, hp, h⟩
    · rcases min_choice a q.z with hm | hm
      · exact Or.inl (h.trans hm)
      · exact Or.inr ⟨q, List.mem_cons_self q rest, h.trans hm⟩
    · exact Or.inr ⟨p, List.mem_cons_of_mem q hp, h⟩

theorem faceDepth_cons (v : Point) (rest : List Point) :
    faceDepth (v :: rest) = rest.foldl (fun m p => min m p.z) v.z := rfl

theorem faceDepth_mem {verts : List Point} (h : verts ≠ []) :
    faceDepth verts ∈ verts.map Point.z := by
  match verts with
  | [] => exact absurd rfl h
  | v :: rest =>
    rw [faceDepth_cons]
    rcases foldl_min_eq_start_or_mem rest v.z with heq | ⟨p, hp, heq⟩
    · rw [heq]
      exact List.mem_map_of_mem Point.z (List.mem_cons_self v rest)
    · rw [heq]
      exact List.mem_map_of_mem Point.z (List.mem_cons_of_mem v hp)

theorem faceDepth_le {verts : List Point} : ∀ v ∈ verts, faceDepth verts ≤ v.z := by
  match verts with
  | [] => intro v hv; simp at hv
  | w :: rest =>
    intro v hv
    rw [faceDepth_cons]
    rcases List.mem_cons.mp hv with h | h
    · exact h ▸ foldl_min_le_start rest w.z
    · exact foldl_min_le_mem rest w.z v h

theorem mem_collectFaces {objs : List ((ℕ × ℕ × ℕ) × List (List Point))} {f : Face}
    (hf : f ∈ collectFaces objs) : f.verts ≠ [] ∧ f.depth = faceDepth f.verts := by
  unfold collectFaces at hf
  obtain ⟨obj, _, hmem⟩ := List.mem_flatMap.mp hf
  obtain ⟨verts, hverts, hfeq⟩ := List.mem_map.mp hmem
  have hne : verts ≠ [] := by
    have := (List.mem_filter.mp hverts).2
    simpa [List.isEmpty_iff] using this
  subst hfeq
  exact ⟨hne, rfl⟩

instance : IsTotal Face fun f g => f.depth ≤ g.depth :=
  ⟨fun a b => le_total a.depth b.depth⟩

instance : IsTrans Face fun f g => f.depth ≤ g.depth :=
  ⟨fun _ _ _ hab hbc => le_trans hab hbc⟩

theorem filter_orderedInsert_of_eq (d : ℚ) (a : Face) (ha : a.depth = d) :
    ∀ l : List Face,
      (List.orderedInsert (fun f g => f.depth ≤ g.depth) a l).filter
          (fun f => decide (f.depth = d)) =
        a :: l.filter (fun f => decide (f.depth = d)) := by
  intro l
  induction l with
  | nil => simp [List.orderedInsert, ha]
  | cons b l ih =>
    by_cases hab : a.depth ≤ b.depth
    · rw [List.orderedInsert, if_pos hab, List.filter_cons, if_pos (by simpa using ha)]
    · have hlt : b.depth < a.depth := not_le.mp hab
      have hbd : ¬ b.depth = d := by
        intro hbd
        rw [ha, hbd] at hlt
        exact lt_irrefl d hlt
      rw [List.orderedInsert, if_neg hab, List.filter_cons, List.filter_cons]
      rw [if_neg (by simpa using hbd), if_neg (by simpa using hbd), ih]

theorem filter_orderedInsert_of_ne (d : ℚ) (a : Face) (ha : ¬ a.depth = d) :
    ∀ l : List Face,
      (List.orderedInsert (fun f g => f.depth ≤ g.depth) a l).filter
          (fun f => decide (f.depth = d)) =
        l.filter (fun f => decide (f.depth = d)) := by
  intro l
  induction l with
  | nil => simp [List.orderedInsert, ha]
  | cons b l ih =>
    by_cases hab : a.depth ≤ b.depth
    · rw [List.orderedInsert, if_pos hab, List.filter_cons, if_neg (by simpa using ha)]
    · rw [List.orderedInsert, if_neg hab, List.filter_cons, List.filter_cons]
      by_cases hbd : b.depth = d
      · rw [if_pos (by simpa using hbd), if_pos (by simpa using hbd), ih]
      · rw [if_neg (by simpa using hbd), if_neg (by simpa using hbd), ih]

theorem filter_sortFaces (d : ℚ) :
    ∀ faces : List Face,
      (sortFaces faces).filter (fun f => decide (f.depth = d)) =
        faces.filter (fun f => decide (f.depth = d)) := by
  intro faces
  induction faces with
  | nil => rfl
  | cons a l ih =>
    unfold sortFaces at ih ⊢
    show (List.orderedInsert _ a (List.insertionSort _ l)).filter _ = _
    by_cases ha : a.depth = d
    · rw [filter_orderedInsert_of_eq d a ha, ih, List.filter_cons, if_pos (by simpa using ha)]
    · rw [filter_orderedInsert_of_ne d a ha, ih, List.filter_cons, if_neg (by simpa using ha)]

/-! ## Helper lemmas: geometry, server id fold, camera fold -/

theorem dot_sub_eq (n v w : Point) : dot n (v.sub w) = dot n v - dot n w := by
  simp only [dot, Point.sub]
  ring

theorem foldl_serverStep_spec (events : List ServerEvent) :
    ∀ s : ServerIdState,
      (events.foldl serverStep s).assigned =
        s.assigned ++ List.range' s.player_id_counter (events.countP ServerEvent.isAccept) ∧
      (events.foldl serverStep s).player_id_counter =
        s.player_id_counter + events.countP ServerEvent.isAccept := by
  induction events with
  | nil => intro s; simp
  | cons e es ih =>
    intro s
    rw [List.foldl_cons]
    cases e with
    | accept =>
      obtain ⟨h1, h2⟩ := ih (serverStep s .accept)
      simp only [serverStep] at h1 h2 ⊢
      have hcount : (ServerEvent.accept :: es).countP ServerEvent.isAccept =
          es.countP ServerEvent.isAccept + 1 := by
        simp [List.countP_cons, ServerEvent.isAccept]
      constructor
      · rw [h1, hcount, List.range'_succ, List.append_assoc, List.singleton_append]
      · rw [h2, hcount]
        omega
    | disconnect pid =>
      obtain ⟨h1, h2⟩ := ih (serverStep s (.disconnect pid))
      simp only [serverStep] at h1 h2 ⊢
      have hcount : (ServerEvent.disconnect pid :: es).countP ServerEvent.isAccept =
          es.countP ServerEvent.isAccept := by
        simp [List.countP_cons, ServerEvent.isAccept]
      exact ⟨by rw [h1, hcount], by rw [h2, hcount]⟩

theorem foldl_handle_game_input_fields (events : List ZoomEvent) :
    ∀ c : Camera, (events.foldl handle_game_input c).min_distance = c.min_distance ∧
      (events.foldl handle_game_input c).max_distance = c.max_distance := by
  induction events with
  | nil => intro c; exact ⟨rfl, rfl⟩
  | cons e es ih =>
    intro c
    rw [List.foldl_cons]
    cases e with
    | wheelUp => exact ih _
    | wheelDown => exact ih _

/-! ## Claim theorems -/

/-- C1 (amended): for a convex polygon whose vertices all satisfy
`z < NEAR_CLIP_PLANE`, `clip_against_near_plane` returns the one-step left
rotation `[v1, …, vn-1, v0]` of the polygon — the vertex count, the vertex
set, and the cyclic vertex order are preserved, but the returned list starts
at the second vertex rather than being the input list itself; for a polygon
whose vertices all satisfy `z ≥ NEAR_CLIP_PLANE` it returns the empty
list. -/
theorem clip_keeps_inside_rotated_drops_outside (poly : List Point) :
    ((∀ v ∈ poly, v.z < NEAR_CLIP_PLANE) →
      clip_against_near_plane poly = poly.rotate 1 ∧
      (clip_against_near_plane poly).length = poly.length ∧
      ∀ v : Point, v ∈ clip_against_near_plane poly ↔ v ∈ poly) ∧
    ((∀ v ∈ poly, NEAR_CLIP_PLANE ≤ v.z) → clip_against_near_plane poly = []) := by
  constructor
  · intro h
    have heq := clip_eq_rotate_of_all_in poly h
    refine ⟨heq, ?_, ?_⟩
    · rw [heq, List.length_rotate]
    · intro v
      rw [heq]
      exact List.mem_rotate
  · exact clip_eq_nil_of_all_out poly

/-- C1 counterexample: a triangle strictly in front of the near plane is not
returned unchanged — `clip_against_near_plane` returns it rotated by one
vertex, so the output list differs from the input list. -/
theorem clip_inside_counterexample :
    (∀ v ∈ ([⟨0, 0, -1⟩, ⟨1, 0, -1⟩, ⟨0, 1, -1⟩] : List Point), v.z < NEAR_CLIP_PLANE) ∧
    clip_against_near_plane [⟨0, 0, -1⟩, ⟨1, 0, -1⟩, ⟨0, 1, -1⟩] =
      [⟨1, 0, -1⟩, ⟨0, 1, -1⟩, ⟨0, 0, -1⟩] ∧
    clip_against_near_plane [⟨0, 0, -1⟩, ⟨1, 0, -1⟩, ⟨0, 1, -1⟩] ≠
      [⟨0, 0, -1⟩, ⟨1, 0, -1⟩, ⟨0, 1, -1⟩] := by
  have hval : clip_against_near_plane [⟨0, 0, -1⟩, ⟨1, 0, -1⟩, ⟨0, 1, -1⟩] =
      [⟨1, 0, -1⟩, ⟨0, 1, -1⟩, ⟨0, 0, -1⟩] := by
    norm_num [clip_against_near_plane, clipEdge, NEAR_CLIP_PLANE, List.rotate]
  refine ⟨?_, hval, ?_⟩
  · intro v hv
    fin_cases hv <;> norm_num [NEAR_CLIP_PLANE]
  · rw [hval]
    intro hcontra
    have := List.head_eq_of_cons_eq hcontra
    rw [Point.mk.injEq] at this
    norm_num at this

/-- C1 witness: the amended theorem applied to a concrete triangle in front
of the near plane and a concrete segment behind it. -/
theorem clip_keeps_inside_rotated_drops_outside_witness :
    clip_against_near_plane [⟨0, 0, -1⟩, ⟨1, 0, -1⟩, ⟨0, 1, -1⟩] =
      ([⟨0, 0, -1⟩, ⟨1, 0, -1⟩, ⟨0, 1, -1⟩] : List Point).rotate 1 ∧
    clip_against_near_plane [⟨0, 0, 1⟩, ⟨1, 0, 1⟩] = [] :=
  ⟨((clip_keeps_inside_rotated_drops_outside [⟨0, 0, -1⟩, ⟨1, 0, -1⟩, ⟨0, 1, -1⟩]).1
      (by intro v hv; fin_cases hv <;> norm_num [NEAR_CLIP_PLANE])).1,
   (clip_keeps_inside_rotated_drops_outside [⟨0, 0, 1⟩, ⟨1, 0, 1⟩]).2
      (by intro v hv; fin_cases hv <;> norm_num [NEAR_CLIP_PLANE])⟩

/-- C2: a point with camera-space `z ≥ 0` yields no projection; a point with
`z < 0` projects to exactly
`(int(x * 400 / -z + WIDTH/2), int(-y * 400 / -z + HEIGHT/2))`; and in the draw
loop a face containing any unprojectable vertex is dropped entirely. -/
theorem project_point_safe (p : Point) (verts : List Point) :
    (0 ≤ p.z → project_point p = none) ∧
    (p.z < 0 →
      project_point p = some (pyInt (p.x * (400 / -p.z) + WIDTH / 2),
        pyInt (-p.y * (400 / -p.z) + HEIGHT / 2))) ∧
    (p ∈ verts → project_point p = none → projectVerts verts = none) := by
  refine ⟨fun h => ?_, fun h => project_point_of_z_neg h, fun hp hnone => ?_⟩
  · unfold project_point
    rw [if_pos h]
  · unfold projectVerts
    rw [if_pos (List.mem_map.mpr ⟨p, hp, hnone⟩)]

/-- C2 witness: the projector at `z = 2` (behind the camera), at `z = -2`
(in front), and a face dropped because it contains the `z = 2` vertex. -/
theorem project_point_safe_witness :
    project_point ⟨3, 4, 2⟩ = none ∧
    project_point ⟨1, 2, -2⟩ = some (pyInt ((1 : ℚ) * (400 / -(-2 : ℚ)) + WIDTH / 2),
      pyInt (-(2 : ℚ) * (400 / -(-2 : ℚ)) + HEIGHT / 2)) ∧
    projectVerts [⟨0, 0, -1⟩, ⟨3, 4, 2⟩] = none :=
  ⟨(project_point_safe ⟨3, 4, 2⟩ []).1 (by norm_num),
   (project_point_safe ⟨1, 2, -2⟩ []).2.1 (by norm_num),
   (project_point_safe ⟨3, 4, 2⟩ [⟨0, 0, -1⟩, ⟨3, 4, 2⟩]).2.2
     (by norm_num) ((project_point_safe ⟨3, 4, 2⟩ []).1 (by norm_num))⟩

/-- C3: the per-frame depth sort permutes the collected faces, orders them
ascending by the stored depth key, is stable (faces with equal depth keys
keep their collection order: filtering by any depth value commutes with the
sort), and each collected face's depth key is the minimum camera-space `z`
over its vertices — so farther faces (smaller minimum `z`) are emitted before
nearer ones. -/
theorem depth_sort_ascending_stable (objs : List ((ℕ × ℕ × ℕ) × List (List Point))) :
    List.Perm (sortFaces (collectFaces objs)) (collectFaces objs) ∧
    List.Sorted (fun f g => f.depth ≤ g.depth) (sortFaces (collectFaces objs)) ∧
    (∀ d : ℚ, (sortFaces (collectFaces objs)).filter (fun f => decide (f.depth = d)) =
      (collectFaces objs).filter (fun f => decide (f.depth = d))) ∧
    ∀ f ∈ collectFaces objs,
      f.depth ∈ f.verts.map Point.z ∧ ∀ v ∈ f.verts, f.depth ≤ v.z := by
  refine ⟨List.perm_insertionSort _ _, List.sorted_insertionSort _ _,
    fun d => filter_sortFaces d _, fun f hf => ?_⟩
  obtain ⟨hne, hdepth⟩ := mem_collectFaces hf
  rw [hdepth]
  exact ⟨faceDepth_mem hne, fun v hv => faceDepth_le v hv⟩

/-- C3 witness: the depth-minimality conjunct applied to a one-face scene. -/
theorem depth_sort_ascending_stable_witness :
    (⟨-5, [⟨0, 0, -5⟩], (1, 2, 3)⟩ : Face).depth ∈
      ([⟨0, 0, -5⟩] : List Point).map Point.z ∧
    (⟨-5, [⟨0, 0, -5⟩], (1, 2, 3)⟩ : Face).depth ≤ (⟨0, 0, -5⟩ : Point).z := by
  have h := (depth_sort_ascending_stable [((1, 2, 3), [[⟨0, 0, -5⟩]])]).2.2.2
    ⟨-5, [⟨0, 0, -5⟩], (1, 2, 3)⟩
    (by norm_num [collectFaces, faceDepth, List.filter])
  exact ⟨h.1, h.2 ⟨0, 0, -5⟩ (by norm_num)⟩

/-- C4: the draw loop computes the face normal as the cross product of the
edge vectors `v1 - v0` and `v2 - v0` built from the first three camera-space
vertices; the culling step discards the face exactly when the dot product of
that normal with the first vertex is `≥ 0` (a normal-dot-position test), and
for a planar face the test gives the same verdict at every vertex of the
face. -/
theorem backface_cull_normal_position_test (f : Face) (v0 v1 v2 : Point)
    (rest : List Point) (hv : f.verts = v0 :: v1 :: v2 :: rest) :
    faceNormal v0 v1 v2 =
      ⟨(v1.y - v0.y) * (v2.z - v0.z) - (v1.z - v0.z) * (v2.y - v0.y),
       (v1.z - v0.z) * (v2.x - v0.x) - (v1.x - v0.x) * (v2.z - v0.z),
       (v1.x - v0.x) * (v2.y - v0.y) - (v1.y - v0.y) * (v2.x - v0.x)⟩ ∧
    (0 ≤ dot (faceNormal v0 v1 v2) v0 → faceVisiblePolygon f = none) ∧
    (¬ 0 ≤ dot (faceNormal v0 v1 v2) v0 →
      faceVisiblePolygon f =
        if (clip_against_near_plane f.verts).length < 3 then none
        else projectVerts (clip_against_near_plane f.verts)) ∧
    ((∀ v ∈ f.verts, dot (faceNormal v0 v1 v2) (v.sub v0) = 0) →
      ∀ v ∈ f.verts,
        (0 ≤ dot (faceNormal v0 v1 v2) v ↔ 0 ≤ dot (faceNormal v0 v1 v2) v0)) := by
  refine ⟨rfl, fun h => ?_, fun h => ?_, fun hplanar v hv' => ?_⟩
  · simp only [faceVisiblePolygon, hv]
    rw [if_pos h]
  · simp only [faceVisiblePolygon, hv]
    rw [if_neg h]
  · have hdot := hplanar v hv'
    rw [dot_sub_eq, sub_eq_zero] at hdot
    rw [hdot]

/-- C4 witness: the planarity conjunct at a concrete planar triangle, and the
culling conjunct at a concrete back-facing triangle. -/
theorem backface_cull_witness :
    (0 ≤ dot (faceNormal ⟨0, 0, -1⟩ ⟨1, 0, -1⟩ ⟨0, 1, -1⟩) ⟨1, 0, -1⟩ ↔
      0 ≤ dot (faceNormal ⟨0, 0, -1⟩ ⟨1, 0, -1⟩ ⟨0, 1, -1⟩) ⟨0, 0, -1⟩) ∧
    faceVisiblePolygon ⟨-1, [⟨0, 0, -1⟩, ⟨0, 1, -1⟩, ⟨1, 0, -1⟩], (0, 0, 0)⟩ = none := by
  constructor
  · exact (backface_cull_normal_position_test
      ⟨-1, [⟨0, 0, -1⟩, ⟨1, 0, -1⟩, ⟨0, 1, -1⟩], (0, 0, 0)⟩
      ⟨0, 0, -1⟩ ⟨1, 0, -1⟩ ⟨0, 1, -1⟩ [] rfl).2.2.2
      (by intro v hv; fin_cases hv <;> norm_num [dot, Point.sub, faceNormal])
      ⟨1, 0, -1⟩ (by norm_num)
  · exact (backface_cull_normal_position_test
      ⟨-1, [⟨0, 0, -1⟩, ⟨0, 1, -1⟩, ⟨1, 0, -1⟩], (0, 0, 0)⟩
      ⟨0, 0, -1⟩ ⟨0, 1, -1⟩ ⟨1, 0, -1⟩ [] rfl).2.1
      (by norm_num [dot, Point.sub, faceNormal])

/-- C5: across any sequence of accepted connections and disconnections, the
server hands out player ids `1, 2, 3, …` — one per accepted connection, in
order — so the assigned ids are exactly `List.range' 1 k` for `k` accepts:
strictly increasing, unique, and never reused even after the player holding
one disconnects (disconnects never touch the counter or the history). -/
theorem server_player_ids_monotone (events : List ServerEvent) :
    (runServer events).assigned = List.range' 1 (events.countP ServerEvent.isAccept) ∧
    (runServer events).assigned.Nodup ∧
    List.Pairwise (· < ·) (runServer events).assigned ∧
    (runServer events).player_id_counter = 1 + events.countP ServerEvent.isAccept := by
  obtain ⟨h1, h2⟩ := foldl_serverStep_spec events serverStart
  have h1' : (runServer events).assigned =
      List.range' 1 (events.countP ServerEvent.isAccept) := h1
  refine ⟨h1', ?_, ?_, h2⟩
  · rw [h1']
    exact List.nodup_range' 1 _
  · rw [h1']
    exact List.pairwise_lt_range' 1 _

/-- C6: when the name received during the handshake cannot be decoded, the
per-connection handler returns without registering the player: the shared
players table is unchanged, and in particular no entry for that player id
appears that was not already present. -/
theorem failed_handshake_never_registers (players : List (ℕ × PlayerEntry))
    (player_id : ℕ) (player_color : ℕ × ℕ × ℕ) :
    threaded_client_handshake players player_id none player_color = players ∧
    ∀ entry : PlayerEntry,
      ((player_id, entry) ∈ threaded_client_handshake players player_id none player_color ↔
        (player_id, entry) ∈ players) :=
  ⟨rfl, fun _ => Iff.rfl⟩

/-- C7: `Network.send` turns a `socket.error` raised by either the send or
the blocking receive into the failure indicator `none` instead of an uncaught
exception, and on success returns the deserialized snapshot. -/
theorem network_send_error_to_none :
    (∀ (e : String) (r : TransportResult Snapshot),
      network_send (.socketError e) r = none) ∧
    (∀ e : String, network_send (.ok ()) (.socketError e) = none) ∧
    ∀ snap : Snapshot, network_send (.ok ()) (.ok snap) = some snap :=
  ⟨fun _ _ => rfl, fun _ => rfl, fun _ => rfl⟩

/-- C8: world generation emits the ground cuboid at `(0, -2, 0)` with size
`(150, 1, 150)` first, then one cuboid per random draw, so the list has
`N + 1` entries; every generated (non-ground) cuboid has a scalar size in
`[3, 10]` and vertical position `-1.5 + size/2`, so its bottom
(`y - size/2 = -1.5`) rests exactly on the ground's top surface
(`-2 + 1/2 = -1.5`). -/
theorem world_generation_ground_and_resting (draws : List CubeDraw)
    (hsize : ∀ d ∈ draws, 3 ≤ d.size ∧ d.size ≤ 10) :
    (generate_random_world_cubes draws).head? =
      some { pos := (0, -2, 0), size := .triple (150, 1, 150), color := GRASS_GREEN } ∧
    (generate_random_world_cubes draws).length = draws.length + 1 ∧
    ∀ c ∈ (generate_random_world_cubes draws).tail, ∃ s : ℚ,
      c.size = PySize.scalar s ∧ 3 ≤ s ∧ s ≤ 10 ∧
      c.pos.2.1 = -3/2 + s / 2 ∧ c.pos.2.1 - s / 2 = -2 + 1 / 2 := by
  refine ⟨rfl, by simp [generate_random_world_cubes], fun c hc => ?_⟩
  simp only [generate_random_world_cubes, List.tail_cons] at hc
  obtain ⟨d, hd, hdc⟩ := List.mem_map.mp hc
  subst hdc
  refine ⟨d.size, rfl, (hsize d hd).1, (hsize d hd).2, rfl, ?_⟩
  show (-3/2 + d.size / 2 : ℚ) - d.size / 2 = -2 + 1/2
  ring

/-- C8 witness: the theorem applied to a single concrete draw of size 4. -/
theorem world_generation_witness :
    (generate_random_world_cubes [⟨0, 0, 4, (200, 200, 200)⟩]).head? =
      some { pos := (0, -2, 0), size := .triple (150, 1, 150), color := GRASS_GREEN } ∧
    (generate_random_world_cubes [⟨0, 0, 4, (200, 200, 200)⟩]).length = 2 :=
  ⟨(world_generation_ground_and_resting [⟨0, 0, 4, (200, 200, 200)⟩]
      (by intro d hd; fin_cases hd; norm_num)).1,
   (world_generation_ground_and_resting [⟨0, 0, 4, (200, 200, 200)⟩]
      (by intro d hd; fin_cases hd; norm_num)).2.1⟩

/-- C9 counterexample: the mouse-wheel handler modifies `distance` without
clamping.  Starting from `Camera.__init__` and zooming in once per frame for
ten frames leaves the camera exactly at `distance = min_distance = 5`
(in range); one further wheel-up event puts `distance = 4`, strictly below
`min_distance`, so immediately after that distance-modifying operation the
invariant `min_distance ≤ distance ≤ max_distance` is violated (it is only
restored by the clamp in the next `_update_physics_and_input`). -/
theorem camera_zoom_escapes_range :
    (List.replicate 10 [ZoomEvent.wheelUp]).foldl frame_step Camera.start =
      { distance := 5, min_distance := 5, max_distance := 40, zoom_speed := 1 } ∧
    handle_game_input { distance := 5, min_distance := 5, max_distance := 40, zoom_speed := 1 }
        ZoomEvent.wheelUp =
      { distance := 4, min_distance := 5, max_distance := 40, zoom_speed := 1 } ∧
    ¬ ((5 : ℚ) ≤ 4 ∧ (4 : ℚ) ≤ 40) := by
  refine ⟨?_, ?_, ?_⟩
  · norm_num [List.replicate, frame_step, clamp_distance, handle_game_input, Camera.start,
      min_def, max_def]
  · norm_num [handle_game_input]
  · norm_num

/-- C9 (amended): the camera distance is within
`[min_distance, max_distance]` after every per-tick update (which clamps it),
for any queue of wheel events in the frame and any starting state with
`min_distance ≤ max_distance`; wheel input alone may transiently leave the
range until that clamp runs.  The bounds themselves are never modified. -/
theorem camera_distance_clamped_by_update (c : Camera) (events : List ZoomEvent)
    (h : c.min_distance ≤ c.max_distance) :
    c.min_distance ≤ (frame_step c events).distance ∧
    (frame_step c events).distance ≤ c.max_distance ∧
    (frame_step c events).min_distance = c.min_distance ∧
    (frame_step c events).max_distance = c.max_distance := by
  obtain ⟨hmin, hmax⟩ := foldl_handle_game_input_fields events c
  simp only [frame_step, clamp_distance]
  refine ⟨?_, ?_, hmin, hmax⟩
  · rw [hmin]
    exact le_max_left _ _
  · rw [hmin, hmax]
    exact max_le h (min_le_left _ _)

/-- C9 witness: the amended theorem at the initial camera with one wheel-down
event queued. -/
theorem camera_distance_clamped_witness :
    Camera.start.min_distance ≤ (frame_step Camera.start [ZoomEvent.wheelDown]).distance ∧
    (frame_step Camera.start [ZoomEvent.wheelDown]).distance ≤ Camera.start.max_distance :=
  ⟨(camera_distance_clamped_by_update Camera.start [ZoomEvent.wheelDown]
      (by norm_num [Camera.start])).1,
   (camera_distance_clamped_by_update Camera.start [ZoomEvent.wheelDown]
      (by norm_num [Camera.start])).2.1⟩

/-- C10: `NEAR_CLIP_PLANE` is strictly negative and every vertex returned by
`clip_against_near_plane` has `z ≤ NEAR_CLIP_PLANE`; consequently
`project_point` succeeds on every clipped vertex, the projection stage never
returns `none` on a clipped polygon, and a face that passes culling and
keeps at least 3 vertices after clipping is always drawn — the draw loop's
drop-face-on-failed-projection branch is unreachable for it. -/
theorem clipped_faces_always_project (poly : List Point) (f : Face) :
    NEAR_CLIP_PLANE < 0 ∧
    (∀ v ∈ clip_against_near_plane poly, v.z ≤ NEAR_CLIP_PLANE) ∧
    (∀ v ∈ clip_against_near_plane poly, project_point v ≠ none) ∧
    projectVerts (clip_against_near_plane poly) ≠ none ∧
    (∀ v0 v1 v2 : Point, ∀ rest : List Point, f.verts = v0 :: v1 :: v2 :: rest →
      ¬ 0 ≤ dot (faceNormal v0 v1 v2) v0 →
      3 ≤ (clip_against_near_plane f.verts).length →
      faceVisiblePolygon f ≠ none) := by
  refine ⟨NEAR_CLIP_PLANE_neg, clip_z_le poly,
    fun v hv => project_point_ne_none_of_z_le (clip_z_le poly v hv),
    projectVerts_clip_ne_none poly, ?_⟩
  intro v0 v1 v2 rest hv hcull hlen
  rw [hv] at hlen
  simp only [faceVisiblePolygon, hv]
  rw [if_neg hcull, if_neg (not_lt.mpr hlen)]
  exact projectVerts_clip_ne_none (v0 :: v1 :: v2 :: rest)

/-- C10 witness: the theorem at a concrete front-facing triangle in front of
the near plane. -/
theorem clipped_faces_always_project_witness :
    NEAR_CLIP_PLANE < 0 ∧
    (⟨1, 0, -1⟩ : Point).z ≤ NEAR_CLIP_PLANE ∧
    project_point ⟨1, 0, -1⟩ ≠ none ∧
    projectVerts (clip_against_near_plane [⟨0, 0, -1⟩, ⟨1, 0, -1⟩, ⟨0, 1, -1⟩]) ≠ none ∧
    faceVisiblePolygon ⟨-1, [⟨0, 0, -1⟩, ⟨1, 0, -1⟩, ⟨0, 1, -1⟩], (0, 0, 0)⟩ ≠ none := by
  have h := clipped_faces_always_project [⟨0, 0, -1⟩, ⟨1, 0, -1⟩, ⟨0, 1, -1⟩]
    ⟨-1, [⟨0, 0, -1⟩, ⟨1, 0, -1⟩, ⟨0, 1, -1⟩], (0, 0, 0)⟩
  have hmem : (⟨1, 0, -1⟩ : Point) ∈
      clip_against_near_plane [⟨0, 0, -1⟩, ⟨1, 0, -1⟩, ⟨0, 1, -1⟩] := by
    norm_num [clip_against_near_plane, clipEdge, NEAR_CLIP_PLANE, List.rotate]
  exact ⟨h.1, h.2.1 ⟨1, 0, -1⟩ hmem, h.2.2.1 ⟨1, 0, -1⟩ hmem, h.2.2.2.1,
    h.2.2.2.2 ⟨0, 0, -1⟩ ⟨1, 0, -1⟩ ⟨0, 1, -1⟩ [] rfl
      (by norm_num [dot, Point.sub, faceNormal])
      (by norm_num [clip_against_near_plane, clipEdge, NEAR_CLIP_PLANE, List.rotate])⟩
